import Mathlib

/-!
Verification of the clique membership and ledger engine
(src/server/src/routes/cliques.ts) against its design document.

The route handlers are embedded shallowly: the Prisma-backed store becomes
an explicit `DB` record of lists, each handler becomes a pure function from
a `DB` (plus its request inputs) to an HTTP status code, the resulting `DB`,
and any response payload or emitted socket events.  Prisma operations are
modelled per their documented semantics: `create` appends a record,
`findUnique` and `findFirst` search the list in order, `update` and `delete`
with a `where` that matches nothing throw (caught by each handler and turned
into a 500 response).  The external id generators (generateCliqueId,
generateMemberId, generateMediaId) are external collaborators that supply
collision-free identifiers; they are modelled by a single counter `nextId`
carried in `DB`.  Monetary amounts are modelled as integers, timestamps as
naturals taken from a clock field `now`.
-/

/-- A user record, as selected by the handlers (user_id, user_name, mail). -/
structure User where
  user_id : String
  user_name : String
  mail : String
deriving DecidableEq

/-- A clique (group) record.  `is_active` defaults to true on creation;
the create handler never passes it, per the schema default the spec states. -/
structure Clique where
  clique_id : Nat
  clique_name : String
  fund : Int
  is_fund : Bool
  is_active : Bool
deriving DecidableEq

/-- A member record, linking a user to a clique.  `is_active` defaults to
true on creation; the create calls never pass it. -/
structure Member where
  member_id : Nat
  user_id : String
  clique_id : Nat
  is_admin : Bool
  is_active : Bool
  joined_at : Nat
deriving DecidableEq

/-- A ledger entry, keyed by member id and clique id. -/
structure Ledger where
  member_id : Nat
  clique_id : Nat
  amount : Int
  is_due : Bool
deriving DecidableEq

/-- A transaction record (read-only for this core). -/
structure Transaction where
  transaction_id : Nat
  clique_id : Nat
  transaction_type : String
  amount : Int
  description : String
  sender_id : Nat
  is_verified : Bool
  done_at : Nat
deriving DecidableEq

/-- A media record. -/
structure Media where
  media_id : Nat
  clique_id : Nat
  file_url : String
  media_type : String
  sender_id : Nat
deriving DecidableEq

/-- The persistent store visible to the route handlers, together with the
state of the external id generator (`nextId`) and the clock (`now`). -/
structure DB where
  users : List User
  cliques : List Clique
  members : List Member
  ledgers : List Ledger
  transactions : List Transaction
  media : List Media
  nextId : Nat
  now : Nat
deriving DecidableEq

/-- The external id generators (generateCliqueId, generateMemberId,
generateMediaId): collision-free identifier supply, modelled as a counter. -/
def genId (db : DB) : Nat × DB :=
  (db.nextId, { db with nextId := db.nextId + 1 })

/-- Injected failure point for the create-clique handler.  The handler runs
three awaited Prisma creates in sequence with no transaction; `afterClique`
makes the member create throw, `afterMember` makes the ledger create throw.
In either case the catch block answers 500 and performs no rollback. -/
inductive CreateFail
  | noFail
  | afterClique
  | afterMember
deriving DecidableEq

/-- POST / (create a new clique): parses name and funds, derives
`fund_flag = (funds !== 0)`, then sequentially creates the Clique, the
founding admin Member, and a zero-balance Ledger entry.  Returns the id of
the created clique on success. -/
def createClique (db : DB) (name : String) (funds : Int) (founderId : String)
    (fail : CreateFail) : Nat × DB × Option Nat :=
  let fund_flag : Bool := funds != 0
  let p1 := genId db
  let newCliqueId := p1.1
  let db1 := p1.2
  let newClique : Clique :=
    { clique_id := newCliqueId, clique_name := name, fund := funds,
      is_fund := fund_flag, is_active := true }
  let db2 := { db1 with cliques := db1.cliques ++ [newClique] }
  if fail = CreateFail.afterClique then (500, db2, none) else
  let p2 := genId db2
  let newMemberId := p2.1
  let db3 := p2.2
  let newMember : Member :=
    { member_id := newMemberId, user_id := founderId, clique_id := newCliqueId,
      is_admin := true, is_active := true, joined_at := db3.now }
  let db4 := { db3 with members := db3.members ++ [newMember] }
  if fail = CreateFail.afterMember then (500, db4, none) else
  let newLedger : Ledger :=
    { member_id := newMemberId, clique_id := newCliqueId, amount := 0,
      is_due := false }
  let db5 := { db4 with ledgers := db4.ledgers ++ [newLedger] }
  (201, db5, some newCliqueId)

/-- PATCH /:cliqueId (rename): 404 when the clique is absent; otherwise a
partial update that only issues the name update when the supplied name is
truthy (present and non-empty), and answers 200 either way. -/
def renameClique (db : DB) (cid : Nat) (name : Option String) : Nat × DB :=
  match db.cliques.find? (fun c => c.clique_id == cid) with
  | none => (404, db)
  | some _ =>
    match name with
    | none => (200, db)
    | some s =>
      if s = "" then (200, db)
      else
        (200, { db with cliques := db.cliques.map (fun c =>
                  if c.clique_id == cid then { c with clique_name := s } else c) })

/-- DELETE /:cliqueId: `prisma.clique.delete` throws (error P2025) when no
record matches, which the catch block turns into a 500 answer; the in-source
check `if (!deletedClique)` answering 404 is therefore unreachable.  When the
clique exists it is removed, then all its transactions are removed, and the
handler answers 204. -/
def deleteClique (db : DB) (cid : Nat) : Nat × DB :=
  match db.cliques.find? (fun c => c.clique_id == cid) with
  | none => (500, db)
  | some _ =>
    let db1 := { db with cliques := db.cliques.filter (fun c => !(c.clique_id == cid)) }
    let db2 := { db1 with
      transactions := db1.transactions.filter (fun t => !(t.clique_id == cid)) }
    (204, db2)

/-- The multer upload result for a stored file, as validated by the zod
schema `{ mimetype: string, location: string }`: a field that is absent is
`none`. -/
structure UploadFile where
  mimetype : Option String
  location : Option String
deriving DecidableEq

/-- A socket event emitted to a clique room. -/
inductive Event
  | mediaCreated (room : Nat) (payload : Media)
deriving DecidableEq

/-- POST /:cliqueId/media/ (upload): 400 when no file was provided; then the
zod parse demands both mimetype and location, answering 500 without creating
anything when either is missing; otherwise a Media record is created and a
media-created event is emitted to the clique room. -/
def uploadMedia (db : DB) (cid : Nat) (senderMemberId : Nat)
    (file : Option UploadFile) : Nat × DB × List Event :=
  match file with
  | none => (400, db, [])
  | some f =>
    match f.mimetype, f.location with
    | some mt, some loc =>
      let p := genId db
      let m : Media :=
        { media_id := p.1, clique_id := cid, file_url := loc,
          media_type := mt, sender_id := senderMemberId }
      let db2 := { p.2 with media := p.2.media ++ [m] }
      (201, db2, [Event.mediaCreated cid m])
    | _, _ => (500, db, [])

/-- The empty store with the generator counter at 0. -/
def emptyDB : DB :=
  { users := [], cliques := [], members := [], ledgers := [], transactions := [],
    media := [], nextId := 0, now := 0 }

/-- C1 counterexample: a create call on the empty store with a failure
injected after step 1 (the member create throws) answers 500 and leaves the
Clique record persisted with no founding Member and no Ledger entry — a
partial group, contradicting the all-three-or-none contract. -/
theorem c1_create_not_atomic_cex :
    (createClique emptyDB "Trip" 5 "u1" CreateFail.afterClique).1 = 500 ∧
    ((createClique emptyDB "Trip" 5 "u1" CreateFail.afterClique).2.1).cliques.length = 1 ∧
    ((createClique emptyDB "Trip" 5 "u1" CreateFail.afterClique).2.1).members = [] ∧
    ((createClique emptyDB "Trip" 5 "u1" CreateFail.afterClique).2.1).ledgers = [] := by
  decide

/-- The Clique record that a create call starting from store `db` persists. -/
def newCliqueRec (db : DB) (name : String) (funds : Int) : Clique :=
  { clique_id := db.nextId, clique_name := name, fund := funds,
    is_fund := funds != 0, is_active := true }

/-- The founding Member record that a create call starting from `db` persists. -/
def newMemberRec (db : DB) (fid : String) : Member :=
  { member_id := db.nextId + 1, user_id := fid, clique_id := db.nextId,
    is_admin := true, is_active := true, joined_at := db.now }

/-- The zero-balance Ledger entry that a create call starting from `db` persists. -/
def newLedgerRec (db : DB) : Ledger :=
  { member_id := db.nextId + 1, clique_id := db.nextId, amount := 0,
    is_due := false }

/-- C1 amended: create performs three sequential record creations with no
transaction.  A fully successful call persists the Clique, the founding
admin Member, and the zero-balance Ledger entry; a failure injected after
step 1 leaves just the Clique persisted, and after step 2 the Clique and the
Member, answering 500 with no rollback in both cases. -/
theorem c1_create_amended (db : DB) (name : String) (funds : Int) (fid : String) :
    createClique db name funds fid CreateFail.noFail =
      (201,
       { db with
         nextId := db.nextId + 2,
         cliques := db.cliques ++ [newCliqueRec db name funds],
         members := db.members ++ [newMemberRec db fid],
         ledgers := db.ledgers ++ [newLedgerRec db] },
       some db.nextId) ∧
    createClique db name funds fid CreateFail.afterClique =
      (500,
       { db with
         nextId := db.nextId + 1,
         cliques := db.cliques ++ [newCliqueRec db name funds] },
       none) ∧
    createClique db name funds fid CreateFail.afterMember =
      (500,
       { db with
         nextId := db.nextId + 2,
         cliques := db.cliques ++ [newCliqueRec db name funds],
         members := db.members ++ [newMemberRec db fid] },
       none) := by
  refine ⟨?_, ?_, ?_⟩ <;> (cases db; rfl)

/-- Store for the delete-clique evaluation: cliques 1 and 2, each with a
transaction; no clique 999. -/
def exDbC3 : DB :=
  { users := [], cliques :=
      [{ clique_id := 1, clique_name := "Trip", fund := 0, is_fund := false,
         is_active := true },
       { clique_id := 2, clique_name := "Rent", fund := 7, is_fund := true,
         is_active := true }],
    members := [], ledgers := [],
    transactions :=
      [{ transaction_id := 100, clique_id := 1, transaction_type := "credit",
         amount := 3, description := "d1", sender_id := 10, is_verified := true,
         done_at := 5 },
       { transaction_id := 101, clique_id := 2, transaction_type := "debit",
         amount := 4, description := "d2", sender_id := 11, is_verified := false,
         done_at := 6 }],
    media := [], nextId := 0, now := 0 }

/-- C3 evaluation: deleting an existing clique answers 204, removes the
group record and exactly its own transactions; deleting an absent clique id
answers 500 (the thrown Prisma error reaches the catch block), not the 404
the design document states. -/
theorem c3_delete_clique_eval :
    deleteClique exDbC3 999 = (500, exDbC3) ∧
    (deleteClique exDbC3 1).1 = 204 ∧
    ((deleteClique exDbC3 1).2.cliques.any (fun c => c.clique_id == 1)) = false ∧
    ((deleteClique exDbC3 1).2.transactions.any (fun t => t.clique_id == 1)) = false ∧
    ((deleteClique exDbC3 1).2.transactions.any (fun t => t.clique_id == 2)) = true ∧
    ((deleteClique exDbC3 1).2.cliques.any (fun c => c.clique_id == 2)) = true := by
  decide

/-- C7: when a file reached the handler but its stored metadata is missing
the content type or the storage location, the upload answers 500 with the
store unchanged (no Media record) and no event emitted. -/
theorem c7_upload_validation (db : DB) (cid smid : Nat) (f : UploadFile)
    (h : f.mimetype = none ∨ f.location = none) :
    uploadMedia db cid smid (some f) = (500, db, []) := by
  cases f with
  | mk mt loc =>
    cases h with
    | inl hmt => cases mt with
      | none => cases loc <;> rfl
      | some v => exact absurd hmt (by simp)
    | inr hloc => cases loc with
      | none => cases mt <;> rfl
      | some v => exact absurd hloc (by simp)

/-- C7 witness: a concrete upload result carrying a location but no content
type answers 500 on the empty store, creating nothing and emitting nothing. -/
theorem c7_upload_validation_wit :
    uploadMedia emptyDB 1 10 (some { mimetype := none, location := some "s3x" }) =
      (500, emptyDB, []) :=
  c7_upload_validation emptyDB 1 10 { mimetype := none, location := some "s3x" }
    (Or.inl rfl)

/-- C10: for an existing clique, a rename request whose name is absent or
empty issues no update: the handler answers 200 with the store unchanged. -/
theorem c10_rename_noop (db : DB) (cid : Nat) (name : Option String)
    (hex : (db.cliques.find? (fun c => c.clique_id == cid)).isSome = true)
    (hname : name = none ∨ name = some "") :
    renameClique db cid name = (200, db) := by
  unfold renameClique
  cases hfind : db.cliques.find? (fun c => c.clique_id == cid) with
  | none => rw [hfind] at hex; simp at hex
  | some c =>
    cases hname with
    | inl h => subst h; rfl
    | inr h => subst h; simp

/-- Store for the rename witness: one clique named Trip. -/
def exDbC10 : DB :=
  { users := [], cliques :=
      [{ clique_id := 1, clique_name := "Trip", fund := 0, is_fund := false,
         is_active := true }],
    members := [], ledgers := [], transactions := [], media := [],
    nextId := 0, now := 0 }

/-- C10 witness: renaming clique 1 with an empty name leaves the store
unchanged and answers 200. -/
theorem c10_rename_noop_wit :
    renameClique exDbC10 1 (some "") = (200, exDbC10) :=
  c10_rename_noop exDbC10 1 (some "") (by decide) (Or.inr rfl)

/-- The member shape returned by the listing handlers. -/
structure MemberView where
  user_id : String
  member_id : Nat
  member_name : String
  email : String
  is_admin : Bool
deriving DecidableEq

/-- The clique shape returned by GET / (list my cliques). -/
structure CliqueListView where
  clique_id : Nat
  clique_name : String
  members : List MemberView
  is_fund : Bool
  fund : Int
  isActive : Bool
  last_transaction : Option Transaction
deriving DecidableEq

/-- The clique shape returned by GET /:cliqueId. -/
structure CliqueDetailView where
  clique_id : Nat
  clique_name : String
  members : List MemberView
  isFund : Bool
  fund : Int
  isActive : Bool
deriving DecidableEq

/-- The member-to-view transformation used by both listing handlers: the
joined user supplies the display name and mail. -/
def memberView (users : List User) (m : Member) : MemberView :=
  { user_id := m.user_id, member_id := m.member_id,
    member_name := ((users.find? (fun u => u.user_id == m.user_id)).map
      (fun u => u.user_name)).getD "",
    email := ((users.find? (fun u => u.user_id == m.user_id)).map
      (fun u => u.mail)).getD "",
    is_admin := m.is_admin }

/-- The `include: members: where is_active` clause of the listing queries. -/
def includedActiveMembers (db : DB) (cid : Nat) : List Member :=
  db.members.filter (fun m => m.clique_id == cid && m.is_active)

/-- The member list as returned to callers: the included (already active)
members are filtered on `is_active` once more and mapped to views. -/
def transformedMembers (db : DB) (cid : Nat) : List MemberView :=
  ((includedActiveMembers db cid).filter (fun m => m.is_active)).map
    (memberView db.users)

/-- The `orderBy done_at desc, take 1` clause: the transaction of the clique
with the greatest timestamp, if any. -/
def latestTransaction (ts : List Transaction) (cid : Nat) : Option Transaction :=
  (ts.filter (fun t => t.clique_id == cid)).foldl
    (fun best t =>
      match best with
      | none => some t
      | some b => if t.done_at > b.done_at then some t else some b)
    none

/-- GET / (list my cliques): the cliques in which the caller holds an active
member record, each with its active members and latest transaction. -/
def listForUser (db : DB) (uid : String) : List CliqueListView :=
  (db.cliques.filter (fun c => db.members.any (fun m =>
      m.user_id == uid && m.clique_id == c.clique_id && m.is_active))).map
    (fun c =>
      { clique_id := c.clique_id, clique_name := c.clique_name,
        members := transformedMembers db c.clique_id,
        is_fund := c.is_fund, fund := c.fund, isActive := c.is_active,
        last_transaction := latestTransaction db.transactions c.clique_id })

/-- GET /:cliqueId: 404 when absent, else the clique with its active members. -/
def getCliqueById (db : DB) (cid : Nat) : Nat × Option CliqueDetailView :=
  match db.cliques.find? (fun c => c.clique_id == cid) with
  | none => (404, none)
  | some c =>
    (200, some
      { clique_id := c.clique_id, clique_name := c.clique_name,
        members := transformedMembers db c.clique_id,
        isFund := c.is_fund, fund := c.fund, isActive := c.is_active })

/-- Every member view produced by the shared transformation stems from an
active member record of the store. -/
theorem transformedMembers_active (db : DB) (cid : Nat) :
    ∀ mv ∈ transformedMembers db cid, ∃ m, m ∈ db.members ∧
      m.member_id = mv.member_id ∧ m.user_id = mv.user_id ∧ m.is_active = true := by
  intro mv hmv
  unfold transformedMembers at hmv
  rcases List.mem_map.mp hmv with ⟨m, hmem, hview⟩
  rcases List.mem_filter.mp hmem with ⟨hmem2, hact⟩
  unfold includedActiveMembers at hmem2
  rcases List.mem_filter.mp hmem2 with ⟨hdb, _⟩
  subst hview
  exact ⟨m, hdb, rfl, rfl, hact⟩

/-- C6: neither the list-my-cliques result nor the get-clique-by-id result
ever contains a member whose underlying record is inactive: every returned
member view stems from a member record with is_active = true. -/
theorem c6_listings_active_only (db : DB) (uid : String) (cid : Nat) :
    (∀ cv, cv ∈ listForUser db uid → ∀ mv ∈ cv.members, ∃ m, m ∈ db.members ∧
      m.member_id = mv.member_id ∧ m.user_id = mv.user_id ∧ m.is_active = true) ∧
    (∀ dv, (getCliqueById db cid).2 = some dv → ∀ mv ∈ dv.members, ∃ m,
      m ∈ db.members ∧ m.member_id = mv.member_id ∧ m.user_id = mv.user_id ∧
      m.is_active = true) := by
  constructor
  · intro cv hcv mv hmv
    unfold listForUser at hcv
    rcases List.mem_map.mp hcv with ⟨c, _, hview⟩
    subst hview
    exact transformedMembers_active db c.clique_id mv hmv
  · intro dv hdv mv hmv
    unfold getCliqueById at hdv
    cases hfind : db.cliques.find? (fun c => c.clique_id == cid) with
    | none => rw [hfind] at hdv; cases hdv
    | some c =>
      rw [hfind] at hdv
      cases hdv
      exact transformedMembers_active db c.clique_id mv hmv

/-- Store for the listing witness: one clique with one active member. -/
def exDbC6 : DB :=
  { users := [{ user_id := "u1", user_name := "Alice", mail := "ax" }],
    cliques :=
      [{ clique_id := 1, clique_name := "Trip", fund := 0, is_fund := false,
         is_active := true }],
    members :=
      [{ member_id := 10, user_id := "u1", clique_id := 1, is_admin := false,
         is_active := true, joined_at := 0 }],
    ledgers := [{ member_id := 10, clique_id := 1, amount := 0, is_due := false }],
    transactions := [], media := [], nextId := 11, now := 0 }

/-- C6 witness: in the concrete store, the single member view listed for
user u1 stems from an active member record. -/
theorem c6_listings_active_only_wit :
    ∃ m, m ∈ exDbC6.members ∧ m.member_id = 10 ∧ m.user_id = "u1" ∧
      m.is_active = true := by
  have h := (c6_listings_active_only exDbC6 "u1" 1).1
  exact h
    { clique_id := 1, clique_name := "Trip",
      members := [{ user_id := "u1", member_id := 10, member_name := "Alice",
                    email := "ax", is_admin := false }],
      is_fund := false, fund := 0, isActive := true, last_transaction := none }
    (by decide)
    { user_id := "u1", member_id := 10, member_name := "Alice", email := "ax",
      is_admin := false }
    (by decide)

/-- The member shape pushed onto the `newMembers` array by the add-members
handler. -/
structure MemberOut where
  member_id : Nat
  user_id : String
  clique_id : Nat
  is_admin : Bool
  joined_at : Nat
  member_name : String
  email : String
deriving DecidableEq

/-- Control flow of one iteration of the add-members loop: an early
response (`exit`, carrying the response data when the handler sends the
member list) or fall-through to the next id (`cont`). -/
inductive AddStep
  | exit (status : Nat) (db : DB) (data : Option (List MemberOut))
  | cont (db : DB) (acc : List MemberOut)
deriving DecidableEq

/-- `prisma.member.update` of `is_active` through a unique member id. -/
def setMemberActive (ms : List Member) (mid : Nat) (b : Bool) : List Member :=
  ms.map (fun m => if m.member_id == mid then { m with is_active := b } else m)

/-- One iteration of the add-members loop, for one candidate user id:
resolve the user (exit 404 when absent), draw a fresh member id from the
generator, look up an existing (user, clique) member record; when found and
active exit 409, when found and inactive reactivate it in place and exit 201
with the members accumulated so far, otherwise create the member and its
zero-balance ledger entry and continue. -/
def addMemberStep (c : Nat) (db : DB) (acc : List MemberOut) (userId : String) :
    AddStep :=
  match db.users.find? (fun u => u.user_id == userId) with
  | none => AddStep.exit 404 db none
  | some user =>
    let p := genId db
    let newMemberId := p.1
    let db1 := p.2
    match db1.members.find? (fun m => m.user_id == userId && m.clique_id == c) with
    | some checkMember =>
      if checkMember.is_active then AddStep.exit 409 db1 none
      else
        let db2 := { db1 with
          members := setMemberActive db1.members checkMember.member_id true }
        AddStep.exit 201 db2 (some acc)
    | none =>
      let newMember : Member :=
        { member_id := newMemberId, user_id := userId, clique_id := c,
          is_admin := false, is_active := true, joined_at := db1.now }
      let db2 := { db1 with members := db1.members ++ [newMember] }
      let db3 := { db2 with ledgers := db2.ledgers ++
        [{ member_id := newMemberId, clique_id := c, amount := 0,
           is_due := false }] }
      let out : MemberOut :=
        { member_id := newMemberId, user_id := userId, clique_id := c,
          is_admin := false, joined_at := db1.now,
          member_name := user.user_name, email := user.mail }
      AddStep.cont db3 (acc ++ [out])

/-- The `for (const userId of userIds)` loop of the add-members handler. -/
def addMembersLoop (c : Nat) : DB → List MemberOut → List String → AddStep
  | db, acc, [] => AddStep.cont db acc
  | db, acc, userId :: rest =>
    match addMemberStep c db acc userId with
    | AddStep.exit s d r => AddStep.exit s d r
    | AddStep.cont db1 acc1 => addMembersLoop c db1 acc1 rest

/-- POST /:cliqueId/members/: runs the loop over the posted user ids; when
the loop falls through, answers 404 if nothing was accumulated and 201 with
the accumulated members otherwise. -/
def addMembers (db : DB) (c : Nat) (userIds : List String) :
    Nat × DB × Option (List MemberOut) :=
  match addMembersLoop c db [] userIds with
  | AddStep.exit s d r => (s, d, r)
  | AddStep.cont db1 acc =>
    if acc.isEmpty then (404, db1, none) else (201, db1, some acc)

/-- Helper: a search that fails on a concatenation fails on the prefix. -/
theorem find?_append_none {α : Type} (p : α → Bool) :
    ∀ {l1 l2 : List α}, (l1 ++ l2).find? p = none → l1.find? p = none := by
  intro l1 l2 h
  induction l1 with
  | nil => rfl
  | cons a as ih =>
    rw [List.cons_append, List.find?] at h
    rw [List.find?]
    cases hp : p a with
    | false => rw [hp] at h; simp only [hp]; exact ih h
    | true => rw [hp] at h; cases h

/-- Helper: a search that succeeds on a prefix succeeds identically on the
concatenation. -/
theorem find?_append_some {α : Type} (p : α → Bool) {a : α} :
    ∀ {l1 : List α} (l2 : List α), l1.find? p = some a →
      (l1 ++ l2).find? p = some a := by
  intro l1 l2 h
  induction l1 with
  | nil => cases h
  | cons b bs ih =>
    rw [List.find?] at h
    rw [List.cons_append, List.find?]
    cases hp : p b with
    | false => rw [hp] at h; simp only [hp]; exact ih h
    | true => rw [hp] at h; simp only [hp]; exact h

/-- The loop processes a concatenation by processing the prefix and, when it
falls through, continuing on the suffix from the reached state. -/
theorem addLoop_append (c : Nat) (l1 l2 : List String) :
    ∀ (db : DB) (acc : List MemberOut),
      addMembersLoop c db acc (l1 ++ l2) =
        match addMembersLoop c db acc l1 with
        | AddStep.exit s d r => AddStep.exit s d r
        | AddStep.cont d a => addMembersLoop c d a l2 := by
  induction l1 with
  | nil => intro db acc; rfl
  | cons x xs ih =>
    intro db acc
    rw [List.cons_append]
    show (match addMemberStep c db acc x with
          | AddStep.exit s d r => AddStep.exit s d r
          | AddStep.cont db1 acc1 => addMembersLoop c db1 acc1 (xs ++ l2)) =
         match (match addMemberStep c db acc x with
                | AddStep.exit s d r => AddStep.exit s d r
                | AddStep.cont db1 acc1 => addMembersLoop c db1 acc1 xs) with
         | AddStep.exit s d r => AddStep.exit s d r
         | AddStep.cont d a => addMembersLoop c d a l2
    cases addMemberStep c db acc x with
    | exit s d r => rfl
    | cont d a => exact ih d a

/-- The zero-balance ledger entry implicitly created with a new member. -/
def ledgerOf (nm : Member) : Ledger :=
  { member_id := nm.member_id, clique_id := nm.clique_id, amount := 0,
    is_due := false }

/-- Structure of a fall-through run of the add-members loop: the users,
cliques, transactions and media tables are untouched, the generator only
advances, and the member and ledger tables grow by a list of new members and
their zero-balance ledger entries; each new member belongs to the target
clique, carries a freshly generated id, and had no prior (user, clique)
record; every accumulated output is an input one or mirrors a new member. -/
theorem addLoop_cont_struct (c : Nat) (l : List String) :
    ∀ (db : DB) (acc : List MemberOut) (db2 : DB) (acc2 : List MemberOut),
      addMembersLoop c db acc l = AddStep.cont db2 acc2 →
      db2.users = db.users ∧ db2.cliques = db.cliques ∧
      db2.transactions = db.transactions ∧ db2.media = db.media ∧
      db2.now = db.now ∧ db.nextId ≤ db2.nextId ∧
      ∃ new : List Member,
        db2.members = db.members ++ new ∧
        db2.ledgers = db.ledgers ++ new.map ledgerOf ∧
        (∀ nm ∈ new, nm.clique_id = c ∧ db.nextId ≤ nm.member_id ∧
          db.members.find? (fun m => m.user_id == nm.user_id && m.clique_id == c)
            = none) ∧
        (∀ mo ∈ acc2, mo ∈ acc ∨ ∃ nm ∈ new,
          mo.member_id = nm.member_id ∧ mo.user_id = nm.user_id) := by
  induction l with
  | nil =>
    intro db acc db2 acc2 h
    injection h with h1 h2
    subst h1; subst h2
    refine ⟨rfl, rfl, rfl, rfl, rfl, Nat.le_refl _, [], by simp, by simp, ?_, ?_⟩
    · intro nm hnm; cases hnm
    · intro mo hmo; exact Or.inl hmo
  | cons x xs ih =>
    intro db acc db2 acc2 h
    have h0 : (match addMemberStep c db acc x with
               | AddStep.exit s d r => AddStep.exit s d r
               | AddStep.cont db1 acc1 => addMembersLoop c db1 acc1 xs)
              = AddStep.cont db2 acc2 := h
    cases hstep : addMemberStep c db acc x with
    | exit s d r =>
      rw [hstep] at h0
      exact AddStep.noConfusion h0
    | cont db1 acc1 =>
      rw [hstep] at h0
      have h2 : addMembersLoop c db1 acc1 xs = AddStep.cont db2 acc2 := h0
      simp only [addMemberStep, genId] at hstep
      cases hfindu : db.users.find? (fun u => u.user_id == x) with
      | none =>
        rw [hfindu] at hstep
        exact AddStep.noConfusion hstep
      | some user =>
        rw [hfindu] at hstep
        simp only [] at hstep
        cases hfindm : db.members.find?
            (fun m => m.user_id == x && m.clique_id == c) with
        | some cm =>
          rw [hfindm] at hstep
          cases hcm : cm.is_active with
          | false => simp only [hcm, Bool.false_eq_true, if_false] at hstep
                     exact AddStep.noConfusion hstep
          | true => simp only [hcm, if_true] at hstep
                    exact AddStep.noConfusion hstep
        | none =>
          rw [hfindm] at hstep
          injection hstep with hdb hacc
          subst hdb; subst hacc
          obtain ⟨hu, hc, ht, hme, hnw, hle, new', hmem, hled, hprops, haccp⟩ :=
            ih _ _ _ _ h2
          refine ⟨hu, hc, ht, hme, hnw, Nat.le_of_succ_le hle,
            ({ member_id := db.nextId, user_id := x, clique_id := c,
               is_admin := false, is_active := true,
               joined_at := db.now } : Member) :: new', ?_, ?_, ?_, ?_⟩
          · simp only [hmem, List.cons_append, List.nil_append, List.map_cons,
              List.append_assoc, List.singleton_append]
          · simp only [hled, ledgerOf, List.cons_append, List.nil_append,
              List.map_cons, List.append_assoc, List.singleton_append]
          · intro nm hnm
            cases List.mem_cons.mp hnm with
            | inl heq =>
              subst heq
              exact ⟨rfl, Nat.le_refl _, hfindm⟩
            | inr hmemn =>
              obtain ⟨hp1, hp2, hp3⟩ := hprops nm hmemn
              refine ⟨hp1, Nat.le_of_succ_le hp2, ?_⟩
              exact find?_append_none _ hp3
          · intro mo hmo
            cases haccp mo hmo with
            | inl hin =>
              cases List.mem_append.mp hin with
              | inl ha => exact Or.inl ha
              | inr hb =>
                have hmo2 := List.mem_singleton.mp hb
                subst hmo2
                exact Or.inr ⟨_, List.mem_cons_self _ _, rfl, rfl⟩
            | inr hex =>
              obtain ⟨nm, hnm, hid⟩ := hex
              exact Or.inr ⟨nm, List.mem_cons_of_mem _ hnm, hid⟩

/-- C5: when the loop has processed a prefix of ids and fallen through to
state `dbp` with accumulator `acc`, and the next id resolves to no user,
the whole call answers 404 immediately in state `dbp`: the remaining ids
are not processed and the members created for the earlier ids are still
persisted (no rollback). -/
theorem c5_unknown_user_stops (db dbp : DB) (g : Nat) (u : String)
    (pre post : List String) (acc : List MemberOut)
    (hpre : addMembersLoop g db [] pre = AddStep.cont dbp acc)
    (hu : db.users.find? (fun w => w.user_id == u) = none) :
    addMembers db g (pre ++ u :: post) = (404, dbp, none) ∧
    ∀ mo ∈ acc, ∃ m, m ∈ dbp.members ∧ m.member_id = mo.member_id ∧
      m.user_id = mo.user_id := by
  obtain ⟨husers, _, _, _, _, _, new, hmem, _, _, haccp⟩ :=
    addLoop_cont_struct g pre db [] dbp acc hpre
  have hstep : addMemberStep g dbp acc u = AddStep.exit 404 dbp none := by
    simp only [addMemberStep]
    rw [husers, hu]
  have hloopfull : addMembersLoop g db [] (pre ++ u :: post) =
      AddStep.exit 404 dbp none := by
    rw [addLoop_append g pre (u :: post) db [], hpre]
    show (match addMemberStep g dbp acc u with
          | AddStep.exit s d r => AddStep.exit s d r
          | AddStep.cont d a => addMembersLoop g d a post) = _
    rw [hstep]
  constructor
  · show (match addMembersLoop g db [] (pre ++ u :: post) with
          | AddStep.exit s d r => (s, d, r)
          | AddStep.cont db1 a =>
            if a.isEmpty then (404, db1, none) else (201, db1, some a)) = _
    rw [hloopfull]
  · intro mo hmo
    cases haccp mo hmo with
    | inl hnil => cases hnil
    | inr hex =>
      obtain ⟨nm, hnm, hid1, hid2⟩ := hex
      refine ⟨nm, ?_, hid1.symm, hid2.symm⟩
      rw [hmem]
      exact List.mem_append_right _ hnm

/-- C4: when the loop has processed a prefix of ids and fallen through to
state `dbp`, and the next id is a known user who already holds an active
member record of the clique, the call answers 409 (only the id generator
advanced), the remaining ids are not processed, and the whole call has
created no additional (user, clique) member record and no additional ledger
entry for that member. -/
theorem c4_duplicate_active_conflict (db dbp : DB) (g : Nat) (u : String)
    (pre post : List String) (acc : List MemberOut) (m : Member)
    (hpre : addMembersLoop g db [] pre = AddStep.cont dbp acc)
    (hu : (db.users.find? (fun w => w.user_id == u)).isSome = true)
    (hm : db.members.find? (fun w => w.user_id == u && w.clique_id == g) = some m)
    (hact : m.is_active = true)
    (hfresh : ∀ w ∈ db.members, w.member_id < db.nextId) :
    addMembers db g (pre ++ u :: post) =
      (409, { dbp with nextId := dbp.nextId + 1 }, none) ∧
    ((addMembers db g (pre ++ u :: post)).2.1).members.countP
        (fun w => w.user_id == u && w.clique_id == g) =
      db.members.countP (fun w => w.user_id == u && w.clique_id == g) ∧
    ((addMembers db g (pre ++ u :: post)).2.1).ledgers.countP
        (fun l => l.member_id == m.member_id && l.clique_id == g) =
      db.ledgers.countP (fun l => l.member_id == m.member_id && l.clique_id == g) := by
  obtain ⟨husers, _, _, _, _, _, new, hmem, hled, hprops, _⟩ :=
    addLoop_cont_struct g pre db [] dbp acc hpre
  have hu2 : (dbp.users.find? (fun w => w.user_id == u)).isSome = true := by
    rw [husers]; exact hu
  obtain ⟨user0, huser0⟩ := Option.isSome_iff_exists.mp hu2
  have hfindm2 : dbp.members.find? (fun w => w.user_id == u && w.clique_id == g)
      = some m := by
    rw [hmem]; exact find?_append_some _ _ hm
  have hstep : addMemberStep g dbp acc u =
      AddStep.exit 409 { dbp with nextId := dbp.nextId + 1 } none := by
    simp only [addMemberStep, genId]
    rw [huser0]
    simp only [hfindm2, hact, if_true]
  have hloopfull : addMembersLoop g db [] (pre ++ u :: post) =
      AddStep.exit 409 { dbp with nextId := dbp.nextId + 1 } none := by
    rw [addLoop_append g pre (u :: post) db [], hpre]
    show (match addMemberStep g dbp acc u with
          | AddStep.exit s d r => AddStep.exit s d r
          | AddStep.cont d a => addMembersLoop g d a post) = _
    rw [hstep]
  have hres : addMembers db g (pre ++ u :: post) =
      (409, { dbp with nextId := dbp.nextId + 1 }, none) := by
    show (match addMembersLoop g db [] (pre ++ u :: post) with
          | AddStep.exit s d r => (s, d, r)
          | AddStep.cont db1 a =>
            if a.isEmpty then (404, db1, none) else (201, db1, some a)) = _
    rw [hloopfull]
  have hnewzero : new.countP (fun w => w.user_id == u && w.clique_id == g) = 0 := by
    rw [List.countP_eq_zero]
    intro nm hnm hp
    simp only [Bool.and_eq_true] at hp
    obtain ⟨hp1, _⟩ := hp
    have hnu : nm.user_id = u := by
      exact eq_of_beq hp1
    obtain ⟨_, _, hp3⟩ := hprops nm hnm
    rw [hnu] at hp3
    rw [hm] at hp3
    cases hp3
  have hledzero : (new.map ledgerOf).countP
      (fun l => l.member_id == m.member_id && l.clique_id == g) = 0 := by
    rw [List.countP_eq_zero]
    intro l hl hp
    obtain ⟨nm, hnm, hleq⟩ := List.mem_map.mp hl
    simp only [Bool.and_eq_true] at hp
    obtain ⟨hp1, _⟩ := hp
    have hmid : l.member_id = m.member_id := eq_of_beq hp1
    obtain ⟨_, hge, _⟩ := hprops nm hnm
    have hml : m.member_id < db.nextId :=
      hfresh m (List.mem_of_find?_eq_some hm)
    have hlid : l.member_id = nm.member_id := by rw [← hleq]; rfl
    omega
  refine ⟨hres, ?_, ?_⟩
  · rw [hres]
    show dbp.members.countP _ = _
    rw [hmem, List.countP_append, hnewzero]
    exact Nat.add_zero _
  · rw [hres]
    show dbp.ledgers.countP _ = _
    rw [hled, List.countP_append, hledzero]
    exact Nat.add_zero _

/-- C2 amended: when the loop has processed a prefix and fallen through to
state `dbp` with accumulator `acc`, and the next id is a known user whose
(user, clique) member record exists but is inactive, that record is
reactivated in place (same member id, `is_active` set true) and no new
ledger entry is created for it, but the handler then answers 201
immediately, returning only `acc` — the reactivated member is not appended
to the returned list and the remaining ids are not processed. -/
theorem c2_reactivation_amended (db dbp : DB) (g : Nat) (u : String)
    (pre post : List String) (acc : List MemberOut) (m : Member)
    (hpre : addMembersLoop g db [] pre = AddStep.cont dbp acc)
    (hu : (db.users.find? (fun w => w.user_id == u)).isSome = true)
    (hm : db.members.find? (fun w => w.user_id == u && w.clique_id == g) = some m)
    (hina : m.is_active = false)
    (hfresh : ∀ w ∈ db.members, w.member_id < db.nextId) :
    addMembers db g (pre ++ u :: post) =
      (201,
       { dbp with
         nextId := dbp.nextId + 1,
         members := setMemberActive dbp.members m.member_id true },
       some acc) ∧
    ((addMembers db g (pre ++ u :: post)).2.1).ledgers.countP
        (fun l => l.member_id == m.member_id && l.clique_id == g) =
      db.ledgers.countP (fun l => l.member_id == m.member_id && l.clique_id == g) ∧
    { m with is_active := true } ∈
      ((addMembers db g (pre ++ u :: post)).2.1).members := by
  obtain ⟨husers, _, _, _, _, _, new, hmem, hled, hprops, _⟩ :=
    addLoop_cont_struct g pre db [] dbp acc hpre
  have hu2 : (dbp.users.find? (fun w => w.user_id == u)).isSome = true := by
    rw [husers]; exact hu
  obtain ⟨user0, huser0⟩ := Option.isSome_iff_exists.mp hu2
  have hfindm2 : dbp.members.find? (fun w => w.user_id == u && w.clique_id == g)
      = some m := by
    rw [hmem]; exact find?_append_some _ _ hm
  have hstep : addMemberStep g dbp acc u =
      AddStep.exit 201
        { dbp with
          nextId := dbp.nextId + 1,
          members := setMemberActive dbp.members m.member_id true }
        (some acc) := by
    simp only [addMemberStep, genId]
    rw [huser0]
    simp only [hfindm2, hina, Bool.false_eq_true, if_false]
  have hloopfull : addMembersLoop g db [] (pre ++ u :: post) =
      AddStep.exit 201
        { dbp with
          nextId := dbp.nextId + 1,
          members := setMemberActive dbp.members m.member_id true }
        (some acc) := by
    rw [addLoop_append g pre (u :: post) db [], hpre]
    show (match addMemberStep g dbp acc u with
          | AddStep.exit s d r => AddStep.exit s d r
          | AddStep.cont d a => addMembersLoop g d a post) = _
    rw [hstep]
  have hres : addMembers db g (pre ++ u :: post) =
      (201,
       { dbp with
         nextId := dbp.nextId + 1,
         members := setMemberActive dbp.members m.member_id true },
       some acc) := by
    show (match addMembersLoop g db [] (pre ++ u :: post) with
          | AddStep.exit s d r => (s, d, r)
          | AddStep.cont db1 a =>
            if a.isEmpty then (404, db1, none) else (201, db1, some a)) = _
    rw [hloopfull]
  have hledzero : (new.map ledgerOf).countP
      (fun l => l.member_id == m.member_id && l.clique_id == g) = 0 := by
    rw [List.countP_eq_zero]
    intro l hl hp
    obtain ⟨nm, hnm, hleq⟩ := List.mem_map.mp hl
    simp only [Bool.and_eq_true] at hp
    obtain ⟨hp1, _⟩ := hp
    have hmid : l.member_id = m.member_id := eq_of_beq hp1
    obtain ⟨_, hge, _⟩ := hprops nm hnm
    have hml : m.member_id < db.nextId :=
      hfresh m (List.mem_of_find?_eq_some hm)
    have hlid : l.member_id = nm.member_id := by rw [← hleq]; rfl
    omega
  refine ⟨hres, ?_, ?_⟩
  · rw [hres]
    show dbp.ledgers.countP _ = _
    rw [hled, List.countP_append, hledzero]
    exact Nat.add_zero _
  · rw [hres]
    show { m with is_active := true } ∈ setMemberActive dbp.members m.member_id true
    unfold setMemberActive
    refine List.mem_map.mpr ⟨m, ?_, ?_⟩
    · rw [hmem]
      exact List.mem_append_left _ (List.mem_of_find?_eq_some hm)
    · simp

/-- Store for the reactivation scenario: users u1 and u2, clique 1, and an
inactive member record for (u1, clique 1) whose ledger balance is 3. -/
def exDbC2 : DB :=
  { users := [{ user_id := "u1", user_name := "Bob", mail := "bx" },
              { user_id := "u2", user_name := "Eve", mail := "ex" }],
    cliques :=
      [{ clique_id := 1, clique_name := "Trip", fund := 0, is_fund := false,
         is_active := true }],
    members :=
      [{ member_id := 5, user_id := "u1", clique_id := 1, is_admin := false,
         is_active := false, joined_at := 0 }],
    ledgers := [{ member_id := 5, clique_id := 1, amount := 3, is_due := false }],
    transactions := [], media := [], nextId := 6, now := 0 }

/-- The inactive member record of (u1, clique 1) in `exDbC2`. -/
def exMemC2 : Member :=
  { member_id := 5, user_id := "u1", clique_id := 1, is_admin := false,
    is_active := false, joined_at := 0 }

/-- C2 counterexample: adding [u1, u2] to clique 1 where u1 has an inactive
member record reactivates u1 but answers 201 with an empty member list (the
reactivated member is not accumulated) and never processes u2, even though
u2 is a perfectly valid user — refuting both the accumulation and the
continue-to-next-id parts of the claim. -/
theorem c2_reactivation_cex :
    (addMembers exDbC2 1 ["u1", "u2"]).2.2 = some [] ∧
    ((addMembers exDbC2 1 ["u1", "u2"]).2.1).members.countP
      (fun w => w.user_id == "u2") = 0 ∧
    exDbC2.users.any (fun w => w.user_id == "u2") = true := by
  decide

/-- C2 witness: in the concrete store, adding [u1] reactivates member 5 in
place, answers 201 with the empty accumulated list, keeps the single ledger
entry of member 5 (balance 3) without creating another, and the member
record survives with the same id, now active. -/
theorem c2_reactivation_amended_wit :
    addMembers exDbC2 1 ["u1"] =
      (201,
       { exDbC2 with
         nextId := 7,
         members := setMemberActive exDbC2.members 5 true },
       some []) ∧
    ((addMembers exDbC2 1 ["u1"]).2.1).ledgers.countP
        (fun l => l.member_id == 5 && l.clique_id == 1) =
      exDbC2.ledgers.countP (fun l => l.member_id == 5 && l.clique_id == 1) ∧
    { exMemC2 with is_active := true } ∈
      ((addMembers exDbC2 1 ["u1"]).2.1).members := by
  have h := c2_reactivation_amended exDbC2 exDbC2 1 "u1" [] [] [] exMemC2
    rfl (by decide) (by decide) rfl (by decide)
  exact ⟨h.1, h.2.1, h.2.2⟩

/-- Store for the duplicate-active scenario: user u3 with an active member
record (id 8) in clique 2 and its ledger entry. -/
def exDbC4 : DB :=
  { users := [{ user_id := "u3", user_name := "Cara", mail := "cx" }],
    cliques :=
      [{ clique_id := 2, clique_name := "Rent", fund := 4, is_fund := true,
         is_active := true }],
    members :=
      [{ member_id := 8, user_id := "u3", clique_id := 2, is_admin := false,
         is_active := true, joined_at := 0 }],
    ledgers := [{ member_id := 8, clique_id := 2, amount := 0, is_due := false }],
    transactions := [], media := [], nextId := 9, now := 0 }

/-- The active member record of (u3, clique 2) in `exDbC4`. -/
def exMemC4 : Member :=
  { member_id := 8, user_id := "u3", clique_id := 2, is_admin := false,
    is_active := true, joined_at := 0 }

/-- C4 witness: adding [u3] to clique 2 while member 8 is active answers 409
with only the id generator advanced, and leaves the (u3, clique 2) member
count and the ledger count of member 8 unchanged. -/
theorem c4_duplicate_active_conflict_wit :
    addMembers exDbC4 2 ["u3"] = (409, { exDbC4 with nextId := 10 }, none) ∧
    ((addMembers exDbC4 2 ["u3"]).2.1).members.countP
        (fun w => w.user_id == "u3" && w.clique_id == 2) =
      exDbC4.members.countP (fun w => w.user_id == "u3" && w.clique_id == 2) ∧
    ((addMembers exDbC4 2 ["u3"]).2.1).ledgers.countP
        (fun l => l.member_id == 8 && l.clique_id == 2) =
      exDbC4.ledgers.countP (fun l => l.member_id == 8 && l.clique_id == 2) := by
  have h := c4_duplicate_active_conflict exDbC4 exDbC4 2 "u3" [] [] [] exMemC4
    rfl (by decide) (by decide) rfl (by decide)
  exact ⟨h.1, h.2.1, h.2.2⟩

/-- Store for the unknown-user scenario: user u4 and clique 3 only. -/
def exDbC5 : DB :=
  { users := [{ user_id := "u4", user_name := "Dan", mail := "dx" }],
    cliques :=
      [{ clique_id := 3, clique_name := "Gym", fund := 0, is_fund := false,
         is_active := true }],
    members := [], ledgers := [], transactions := [], media := [],
    nextId := 20, now := 0 }

/-- The state after the prefix [u4] has been added to clique 3. -/
def exDbC5p : DB :=
  { exDbC5 with
    nextId := 21,
    members :=
      [{ member_id := 20, user_id := "u4", clique_id := 3, is_admin := false,
         is_active := true, joined_at := 0 }],
    ledgers := [{ member_id := 20, clique_id := 3, amount := 0, is_due := false }] }

/-- The output row accumulated for u4. -/
def exOutC5 : MemberOut :=
  { member_id := 20, user_id := "u4", clique_id := 3, is_admin := false,
    joined_at := 0, member_name := "Dan", email := "dx" }

/-- C5 witness: adding [u4, zz] to clique 3 where zz is no user answers 404
in the state reached after u4 was added — the member and ledger created for
u4 remain persisted. -/
theorem c5_unknown_user_stops_wit :
    addMembers exDbC5 3 ["u4", "zz"] = (404, exDbC5p, none) ∧
    ∃ m, m ∈ exDbC5p.members ∧ m.member_id = exOutC5.member_id ∧
      m.user_id = exOutC5.user_id := by
  have h := c5_unknown_user_stops exDbC5 exDbC5p 3 "zz" ["u4"] [] [exOutC5]
    (by decide) (by decide)
  exact ⟨h.1, h.2 exOutC5 (by decide)⟩

/-- The `for` loop of the remove-members handler: each id is soft-deleted
through `prisma.member.update`, which throws when no member record has that
id; a throw stops the loop while the earlier updates stay persisted. -/
def removeLoop : DB → List Nat → Bool × DB
  | db, [] => (true, db)
  | db, id :: rest =>
    if db.members.any (fun m => m.member_id == id) then
      removeLoop { db with members := setMemberActive db.members id false } rest
    else (false, db)

/-- DELETE /:cliqueId/members/: 204 when every update succeeded, 500 when an
update threw (with the earlier updates persisted). -/
def removeMembers (db : DB) (ids : List Nat) : Nat × DB :=
  match removeLoop db ids with
  | (true, db1) => (204, db1)
  | (false, db1) => (500, db1)

/-- Updating `is_active` never changes the member id. -/
theorem memberId_setActive (m : Member) (mid : Nat) (b : Bool) :
    (if m.member_id == mid then { m with is_active := b } else m).member_id
      = m.member_id := by
  by_cases hb : (m.member_id == mid) = true
  · rw [if_pos hb]
  · rw [if_neg hb]

/-- Setting `is_active` to false on an already inactive record is the
identity. -/
theorem inactive_update_noop (m : Member) (hin : m.is_active = false) :
    { m with is_active := false } = m := by
  cases m with
  | mk a b c d e f =>
    simp only at hin
    rw [hin]

/-- When every id in the list names an existing member record, the remove
loop succeeds and is the pointwise soft-delete of exactly those records. -/
theorem removeLoop_all_found (ids : List Nat) : ∀ db : DB,
    (∀ id ∈ ids, (db.members.any (fun m => m.member_id == id)) = true) →
    removeLoop db ids =
      (true, { db with members := db.members.map (fun m =>
        if ids.contains m.member_id then { m with is_active := false } else m) }) := by
  induction ids with
  | nil =>
    intro db _
    show (true, db) = _
    have hmap : db.members.map (fun m =>
        if ([] : List Nat).contains m.member_id then { m with is_active := false }
        else m) = db.members := by
      simp
    rw [hmap]
  | cons i rest ih =>
    intro db h
    have hi : (db.members.any (fun m => m.member_id == i)) = true :=
      h i (List.mem_cons_self _ _)
    have hrest : ∀ id ∈ rest,
        (({ db with members := setMemberActive db.members i false }).members.any
          (fun m => m.member_id == id)) = true := by
      intro id hid
      have h2 := h id (List.mem_cons_of_mem _ hid)
      rw [List.any_eq_true] at h2
      obtain ⟨m0, hm0, hp0⟩ := h2
      rw [List.any_eq_true]
      refine ⟨(if m0.member_id == i then { m0 with is_active := false } else m0),
        ?_, ?_⟩
      · exact List.mem_map_of_mem _ hm0
      · rw [memberId_setActive]; exact hp0
    have hrec := ih { db with members := setMemberActive db.members i false } hrest
    show (if db.members.any (fun m => m.member_id == i) = true then
            removeLoop { db with members := setMemberActive db.members i false } rest
          else (false, db)) = _
    rw [if_pos hi, hrec]
    have hfun : ((db.members.map (fun m =>
        if m.member_id == i then { m with is_active := false } else m)).map
          (fun m => if rest.contains m.member_id then { m with is_active := false }
            else m)) =
        db.members.map (fun m =>
          if (i :: rest).contains m.member_id then { m with is_active := false }
          else m) := by
      rw [List.map_map]
      apply List.map_congr_left
      intro m _
      by_cases hmi : m.member_id = i
      · simp [Function.comp, hmi]
      · simp [Function.comp, hmi]
    exact congrArg (fun ms => ((true, { db with members := ms }) : Bool × DB)) hfun

/-- C8: when every id in the input names an existing member record, the
remove call answers 204 and the resulting store differs from the input
store only in that exactly those member records have `is_active` set false
(same ids, all other member fields and every other table — in particular
the ledgers — untouched); a record that was already inactive is returned
completely unchanged, so removing it is a successful no-op. -/
theorem c8_remove_soft_delete (db : DB) (ids : List Nat)
    (h : ∀ id ∈ ids, (db.members.any (fun m => m.member_id == id)) = true) :
    removeMembers db ids =
      (204, { db with members := db.members.map (fun m =>
        if ids.contains m.member_id then { m with is_active := false } else m) }) ∧
    ∀ m ∈ db.members, m.is_active = false →
      m ∈ (removeMembers db ids).2.members := by
  have hloop := removeLoop_all_found ids db h
  have hres : removeMembers db ids =
      (204, { db with members := db.members.map (fun m =>
        if ids.contains m.member_id then { m with is_active := false }
        else m) }) := by
    show (match removeLoop db ids with
          | (true, db1) => (204, db1)
          | (false, db1) => (500, db1)) = _
    rw [hloop]
  refine ⟨hres, ?_⟩
  intro m hm hin
  rw [hres]
  show m ∈ db.members.map _
  have hfm : (if ids.contains m.member_id then { m with is_active := false }
      else m) = m := by
    by_cases hc : (ids.contains m.member_id) = true
    · rw [if_pos hc]; exact inactive_update_noop m hin
    · rw [if_neg hc]
  exact List.mem_map.mpr ⟨m, hm, hfm⟩

/-- Store for the remove witness: an active member 30 and an already
inactive member 31 of clique 4, each with a ledger entry. -/
def exDbC8 : DB :=
  { users := [],
    cliques :=
      [{ clique_id := 4, clique_name := "Ski", fund := 9, is_fund := true,
         is_active := true }],
    members :=
      [{ member_id := 30, user_id := "u5", clique_id := 4, is_admin := false,
         is_active := true, joined_at := 0 },
       { member_id := 31, user_id := "u6", clique_id := 4, is_admin := false,
         is_active := false, joined_at := 0 }],
    ledgers := [{ member_id := 30, clique_id := 4, amount := 2, is_due := true },
                { member_id := 31, clique_id := 4, amount := 5, is_due := false }],
    transactions := [], media := [], nextId := 32, now := 0 }

/-- The already inactive member record of `exDbC8`. -/
def exMemC8 : Member :=
  { member_id := 31, user_id := "u6", clique_id := 4, is_admin := false,
    is_active := false, joined_at := 0 }

/-- C8 witness: removing [30, 31] from the concrete store answers 204,
soft-deletes exactly those two records, keeps the ledgers, and the already
inactive member 31 survives unchanged. -/
theorem c8_remove_soft_delete_wit :
    removeMembers exDbC8 [30, 31] =
      (204, { exDbC8 with members := exDbC8.members.map (fun m =>
        if [30, 31].contains m.member_id then { m with is_active := false }
        else m) }) ∧
    exMemC8 ∈ (removeMembers exDbC8 [30, 31]).2.members := by
  have h := c8_remove_soft_delete exDbC8 [30, 31] (by decide)
  exact ⟨h.1, h.2 exMemC8 (by decide) rfl⟩

/-- The store carried by a loop outcome. -/
def AddStep.stateOf : AddStep → DB
  | AddStep.exit _ d _ => d
  | AddStep.cont d _ => d

/-- The store returned by addMembers is the store of the loop outcome. -/
theorem addMembers_state (db : DB) (c : Nat) (uids : List String) :
    (addMembers db c uids).2.1 = (addMembersLoop c db [] uids).stateOf := by
  show (match addMembersLoop c db [] uids with
        | AddStep.exit s d r => (s, d, r)
        | AddStep.cont db1 a =>
          if a.isEmpty then (404, db1, none) else (201, db1, some a)).2.1 =
       (addMembersLoop c db [] uids).stateOf
  cases addMembersLoop c db [] uids with
  | exit s d r => rfl
  | cont d a =>
    show (if a.isEmpty then ((404, d, none) : Nat × DB × Option (List MemberOut))
          else (201, d, some a)).2.1 = d
    by_cases ha : a.isEmpty = true
    · rw [if_pos ha]
    · rw [if_neg ha]

/-- One add-members iteration never touches the cliques table. -/
theorem addMemberStep_cliques (c : Nat) (db : DB) (acc : List MemberOut)
    (x : String) : (addMemberStep c db acc x).stateOf.cliques = db.cliques := by
  simp only [addMemberStep, genId]
  cases hfu : db.users.find? (fun u => u.user_id == x) with
  | none => simp only [hfu, AddStep.stateOf]
  | some user =>
    simp only [hfu]
    cases hfm : db.members.find? (fun m => m.user_id == x && m.clique_id == c) with
    | none => simp only [hfm, AddStep.stateOf]
    | some cm =>
      simp only [hfm]
      split
      · simp only [AddStep.stateOf]
      · simp only [AddStep.stateOf]

/-- The add-members loop never touches the cliques table. -/
theorem addLoop_cliques (c : Nat) (l : List String) : ∀ (db : DB)
    (acc : List MemberOut),
    (addMembersLoop c db acc l).stateOf.cliques = db.cliques := by
  induction l with
  | nil => intro db acc; rfl
  | cons x xs ih =>
    intro db acc
    have hs := addMemberStep_cliques c db acc x
    show (match addMemberStep c db acc x with
          | AddStep.exit s d r => AddStep.exit s d r
          | AddStep.cont d a => addMembersLoop c d a xs).stateOf.cliques =
         db.cliques
    cases hstep : addMemberStep c db acc x with
    | exit s d r =>
      rw [hstep] at hs
      exact hs
    | cont d a =>
      rw [hstep] at hs
      exact (ih d a).trans hs

/-- The remove-members loop never touches the cliques table. -/
theorem removeLoop_cliques (ids : List Nat) : ∀ db : DB,
    (removeLoop db ids).2.cliques = db.cliques := by
  induction ids with
  | nil => intro db; rfl
  | cons i rest ih =>
    intro db
    show (if db.members.any (fun m => m.member_id == i) = true then
            removeLoop { db with members := setMemberActive db.members i false } rest
          else (false, db)).2.cliques = db.cliques
    by_cases hc : (db.members.any (fun m => m.member_id == i)) = true
    · rw [if_pos hc]; exact ih _
    · rw [if_neg hc]

/-- The store returned by removeMembers is the store of the loop outcome. -/
theorem removeMembers_state (db : DB) (ids : List Nat) :
    (removeMembers db ids).2 = (removeLoop db ids).2 := by
  show (match removeLoop db ids with
        | (true, db1) => (204, db1)
        | (false, db1) => (500, db1)).2 = (removeLoop db ids).2
  cases removeLoop db ids with
  | mk b d => cases b <;> rfl

/-- The identity and fund flag of a clique record. -/
def cliqueFundProj (c : Clique) : Nat × Bool := (c.clique_id, c.is_fund)

/-- Mapping after filtering equals filtering the mapped list when the
predicates agree through the map. -/
theorem map_filter_comm {α β : Type} (f : α → β) (q : α → Bool) (q2 : β → Bool)
    (h : ∀ a, q2 (f a) = q a) : ∀ l : List α,
    (l.filter q).map f = (l.map f).filter q2 := by
  intro l
  induction l with
  | nil => rfl
  | cons a as ih =>
    simp only [List.filter_cons, List.map_cons, h a]
    cases hq : q a with
    | false => simp only [Bool.false_eq_true, if_false]; exact ih
    | true => simp only [if_true, List.map_cons]; rw [ih]

/-- C9: the fund flag is fixed at creation and never revisited.  Creation —
under every injected failure mode — appends a clique whose `is_fund` is true
exactly when the supplied fund amount is non-zero; rename preserves the
(id, is_fund) projection of every clique record; delete only removes records
(the projection of the survivors is the filtered projection); and the
member, remove-member and media operations leave the cliques table
untouched. -/
theorem c9_is_fund_stable (db : DB) (name : String) (funds : Int) (fid : String)
    (cid smid : Nat) (nm : Option String) (uids : List String) (mids : List Nat)
    (file : Option UploadFile) :
    (createClique db name funds fid CreateFail.noFail).2.1.cliques =
      db.cliques ++ [newCliqueRec db name funds] ∧
    (createClique db name funds fid CreateFail.afterClique).2.1.cliques =
      db.cliques ++ [newCliqueRec db name funds] ∧
    (createClique db name funds fid CreateFail.afterMember).2.1.cliques =
      db.cliques ++ [newCliqueRec db name funds] ∧
    (newCliqueRec db name funds).is_fund = (funds != 0) ∧
    ((renameClique db cid nm).2.cliques).map cliqueFundProj =
      db.cliques.map cliqueFundProj ∧
    ((deleteClique db cid).2.cliques).map cliqueFundProj =
      (db.cliques.map cliqueFundProj).filter (fun p => !(p.1 == cid)) ∧
    (addMembers db cid uids).2.1.cliques = db.cliques ∧
    (removeMembers db mids).2.cliques = db.cliques ∧
    (uploadMedia db cid smid file).2.1.cliques = db.cliques := by
  refine ⟨?_, ?_, ?_, rfl, ?_, ?_, ?_, ?_, ?_⟩
  · cases db; rfl
  · cases db; rfl
  · cases db; rfl
  · cases hf : db.cliques.find? (fun c => c.clique_id == cid) with
    | none => simp only [renameClique, hf]
    | some c0 =>
      cases nm with
      | none => simp only [renameClique, hf]
      | some s =>
        by_cases hs : s = ""
        · simp only [renameClique, hf, if_pos hs]
        · simp only [renameClique, hf, if_neg hs]
          rw [List.map_map]
          apply List.map_congr_left
          intro c _
          by_cases hcc : (c.clique_id == cid) = true
          · simp only [Function.comp, hcc, if_true]
            rfl
          · simp only [Function.comp, hcc, Bool.false_eq_true, if_false]
  · unfold deleteClique
    cases hf : db.cliques.find? (fun c => c.clique_id == cid) with
    | none =>
      show db.cliques.map cliqueFundProj = _
      have hall := List.find?_eq_none.mp hf
      symm
      rw [List.filter_eq_self]
      intro p hp
      obtain ⟨c, hc, hpc⟩ := List.mem_map.mp hp
      subst hpc
      have hfalse : (c.clique_id == cid) = false := by
        cases hb : (c.clique_id == cid) with
        | false => rfl
        | true => exact absurd hb (hall c hc)
      simp [cliqueFundProj, hfalse]
    | some c0 =>
      show (db.cliques.filter _).map cliqueFundProj = _
      exact map_filter_comm cliqueFundProj
        (fun c => !(c.clique_id == cid)) (fun p => !(p.1 == cid))
        (fun a => rfl) db.cliques
  · rw [addMembers_state]
    exact addLoop_cliques cid uids db []
  · rw [removeMembers_state]
    exact removeLoop_cliques mids db
  · cases file with
    | none => rfl
    | some f =>
      cases f with
      | mk mt loc => cases mt <;> cases loc <;> rfl
